/-
Verification of the robopal kinematics solver and control loop.

Shallow embedding, over exact rational arithmetic, of:
  * `robopal/commons/pin_utils.py` — class `PinSolver` (`fk`, `ik`);
  * `robopal/envs/base.py` — class `MujocoEnv` (`__init__`, `_initialize_time`,
    `_set_init_pose`, `step`, `reset`).

External collaborators (the pinocchio rigid-body library and the mujoco physics
engine) are embedded as abstract operation records (`PinModel`, `MjSim`): each
field stands for one deterministic external call used by the source.  Floating
point numbers are modelled by ℚ; `np.linalg.norm(e) < eps` is modelled by the
equivalent comparison of squares `Σ eᵢ² < eps²`.
-/
import Mathlib

namespace Robopal

/-! ## Embedding of `robopal/commons/pin_utils.py` (class `PinSolver`)

`PinSolver` wraps a pinocchio model/data pair.  Every pinocchio call made by
`fk`/`ik` is deterministic in the joint configuration and the stored model, so
the library is embedded as a record of abstract functions, one per call site.
`n` is the number of joint coordinates (`model.nq`). -/

structure PinModel (n : ℕ) where
  /-- The pose type: pinocchio `SE3` objects. -/
  Pose : Type
  /-- `pin.forwardKinematics(model, data, q)` followed by reading
  `data.oMi[-1]`: the last joint's placement, a function of `q` alone. -/
  fkPose : (Fin n → ℚ) → Pose
  /-- `.translation` of an `SE3`. -/
  toTrans : Pose → (Fin 3 → ℚ)
  /-- `.rotation` of an `SE3`. -/
  toRot : Pose → Matrix (Fin 3) (Fin 3) ℚ
  /-- `pin.SE3(rot, pos)`. -/
  se3 : Matrix (Fin 3) (Fin 3) ℚ → (Fin 3 → ℚ) → Pose
  /-- `a.actInv(b)`: the relative transform `a⁻¹ ∘ b`. -/
  actInv : Pose → Pose → Pose
  /-- `.inverse()` of an `SE3`. -/
  seInv : Pose → Pose
  /-- `pin.log(·).vector`: the se(3) logarithm as a 6-vector, expressed in the
  local (end-effector) frame. -/
  log6 : Pose → (Fin 6 → ℚ)
  /-- `pin.Jlog6(·)`: the Jacobian of the logarithm map. -/
  jlog6 : Pose → Matrix (Fin 6) (Fin 6) ℚ
  /-- `self.get_jac(q)`, i.e. `pin.computeJointJacobians(model, data, q)`:
  the local-frame geometric Jacobian at `q`. -/
  jac : (Fin n → ℚ) → Matrix (Fin 6) (Fin n) ℚ
  /-- `pin.integrate(model, q, dv)`: configuration-space integration. -/
  integrate : (Fin n → ℚ) → (Fin n → ℚ) → (Fin n → ℚ)
  /-- `trans.mat_2_quat(·)` from `robopal/commons/transform.py`. -/
  mat2quat : Matrix (Fin 3) (Fin 3) ℚ → (Fin 4 → ℚ)

/-- `eps = 1e-4` in `PinSolver.ik`. -/
def eps : ℚ := 1 / 10000

/-- `IT_MAX = 1000` in `PinSolver.ik`. -/
def IT_MAX : ℕ := 1000

/-- `DT = 1e-1` in `PinSolver.ik`. -/
def DT : ℚ := 1 / 10

/-- `damp = 1e-12` in `PinSolver.ik`. -/
def damp : ℚ := 1 / 1000000000000

/-- `np.linalg.solve(A, b)`: the exact solution of `A x = b`.  For an
invertible `A` this is `A⁻¹ b = (det A)⁻¹ · adj(A) · b`, written out with the
adjugate so that the definition stays computable over ℚ. -/
def npSolve (A : Matrix (Fin 6) (Fin 6) ℚ) (b : Fin 6 → ℚ) : Fin 6 → ℚ :=
  ((A.det)⁻¹ • A.adjugate).mulVec b

/-- Squared euclidean norm; `np.linalg.norm(v) < eps` is `errNorm2 v < eps²`. -/
def errNorm2 (v : Fin 6 → ℚ) : ℚ := ∑ i, v i * v i

/-- `iMd = self.data.oMi[-1].actInv(oM_des)` with `oM_des = pin.SE3(rot, pos)`. -/
def ikIMd (m : PinModel n) (pos : Fin 3 → ℚ) (rot : Matrix (Fin 3) (Fin 3) ℚ)
    (q : Fin n → ℚ) : m.Pose :=
  m.actInv (m.fkPose q) (m.se3 rot pos)

/-- `err = pin.log(iMd).vector` — the pose error, the matrix logarithm of the
relative transform between current and target pose, in the local frame. -/
def ikErr (m : PinModel n) (pos : Fin 3 → ℚ) (rot : Matrix (Fin 3) (Fin 3) ℚ)
    (q : Fin n → ℚ) : Fin 6 → ℚ :=
  m.log6 (ikIMd m pos rot q)

/-- `J = -np.dot(pin.Jlog6(iMd.inverse()), self.get_jac(q))`. -/
def ikJ (m : PinModel n) (pos : Fin 3 → ℚ) (rot : Matrix (Fin 3) (Fin 3) ℚ)
    (q : Fin n → ℚ) : Matrix (Fin 6) (Fin n) ℚ :=
  -((m.jlog6 (m.seInv (ikIMd m pos rot q))) * m.jac q)

/-- The damped matrix `J.dot(J.T) + damp * np.eye(6)` passed to `np.linalg.solve`. -/
def ikA (m : PinModel n) (pos : Fin 3 → ℚ) (rot : Matrix (Fin 3) (Fin 3) ℚ)
    (q : Fin n → ℚ) : Matrix (Fin 6) (Fin 6) ℚ :=
  ikJ m pos rot q * (ikJ m pos rot q).transpose + damp • (1 : Matrix (Fin 6) (Fin 6) ℚ)

/-- `v = - J.T.dot(np.linalg.solve(J.dot(J.T) + damp * np.eye(6), err))`. -/
def ikV (m : PinModel n) (pos : Fin 3 → ℚ) (rot : Matrix (Fin 3) (Fin 3) ℚ)
    (q : Fin n → ℚ) : Fin n → ℚ :=
  -((ikJ m pos rot q).transpose.mulVec (npSolve (ikA m pos rot q) (ikErr m pos rot q)))

/-- One loop-body update: `q = pin.integrate(self.model, q, v * DT)`. -/
def ikUpdate (m : PinModel n) (pos : Fin 3 → ℚ) (rot : Matrix (Fin 3) (Fin 3) ℚ)
    (q : Fin n → ℚ) : Fin n → ℚ :=
  m.integrate q (fun j => ikV m pos rot q j * DT)

/-- The `while True` loop of `PinSolver.ik`, with the upward counter `i`.
The boolean records which `break` fired: `true` for the tolerance break
(`norm(err) < eps`), `false` for the iteration-cap break (`i >= IT_MAX`);
the Python function itself only returns the first component. -/
def ikLoop (m : PinModel n) (pos : Fin 3 → ℚ) (rot : Matrix (Fin 3) (Fin 3) ℚ)
    (q : Fin n → ℚ) (i : ℕ) : (Fin n → ℚ) × Bool :=
  if errNorm2 (ikErr m pos rot q) < eps * eps then (q, true)
  else if h : IT_MAX ≤ i then (q, false)
  else ikLoop m pos rot (ikUpdate m pos rot q) (i + 1)
  termination_by IT_MAX + 1 - i
  decreasing_by simp_wf; omega

/-- `PinSolver.ik(pos, rot, q_init)`: returns `q.flatten()` (the identity on a
1-D array) — a bare joint configuration, whichever `break` ended the loop. -/
def ik (m : PinModel n) (pos : Fin 3 → ℚ) (rot : Matrix (Fin 3) (Fin 3) ℚ)
    (q_init : Fin n → ℚ) : Fin n → ℚ :=
  (ikLoop m pos rot q_init 0).1

/-- `PinSolver.fk(q, rot_format)`: the `if/elif` chain has no `else`, so any
`rot_format` other than "matrix" and "quat" falls through, returning `None`. -/
def fk (m : PinModel n) (q : Fin n → ℚ) (rot_format : String) :
    Option ((Fin 3 → ℚ) × (Matrix (Fin 3) (Fin 3) ℚ ⊕ (Fin 4 → ℚ))) :=
  if rot_format = "matrix" then
    some (m.toTrans (m.fkPose q), Sum.inl (m.toRot (m.fkPose q)))
  else if rot_format = "quat" then
    some (m.toTrans (m.fkPose q), Sum.inr (m.mat2quat (m.toRot (m.fkPose q))))
  else none

/-- Result type for the spec's reading of `ik` (spec §4.2 step 4 and §7):
either a converged configuration or a `ConvergenceError` carrying the
best-effort final configuration. -/
inductive IkOutcome (n : ℕ) where
  | ok (q : Fin n → ℚ)
  | convergenceError (q : Fin n → ℚ)

/-- Refinement-claim counterpart of `ikLoop`, following the spec's words (for
comparison with the source-derived `ik` only): identical iteration, but on
reaching the iteration cap without tolerance the spec demands that a
`ConvergenceError` be surfaced to the caller alongside the best-effort `q`. -/
def ikSpecLoop (m : PinModel n) (pos : Fin 3 → ℚ) (rot : Matrix (Fin 3) (Fin 3) ℚ)
    (q : Fin n → ℚ) (i : ℕ) : IkOutcome n :=
  if errNorm2 (ikErr m pos rot q) < eps * eps then .ok q
  else if h : IT_MAX ≤ i then .convergenceError q
  else ikSpecLoop m pos rot (ikUpdate m pos rot q) (i + 1)
  termination_by IT_MAX + 1 - i
  decreasing_by simp_wf; omega

/-- Refinement-claim counterpart of `ik` per the spec's words. -/
def ikSpec (m : PinModel n) (pos : Fin 3 → ℚ) (rot : Matrix (Fin 3) (Fin 3) ℚ)
    (q_init : Fin n → ℚ) : IkOutcome n :=
  ikSpecLoop m pos rot q_init 0

/-! ## Embedding of `robopal/envs/base.py` (class `MujocoEnv`)

`J` is the type of joint names, `A` the type of actions.  The mujoco engine is
embedded as the abstract record `MjSim`; the pluggable `inner_step`
(abstract in `MujocoEnv`, implemented by subclasses as an effect on the
simulation data) is one of its fields. -/

/-- The slice of `mujoco.MjData` that the claims touch: joint positions and
velocities. -/
structure MjData (J : Type) where
  qpos : J → ℚ
  qvel : J → ℚ

/-- The slice of `mujoco.MjModel` that the claims touch: `opt.timestep`. -/
structure MjModel where
  timestep : ℚ

/-- Deterministic external calls made by `MujocoEnv`. -/
structure MjSim (J A : Type) where
  /-- `mujoco.mj_step(model, data)`: advance physics by one engine timestep. -/
  mjStep : MjModel → MjData J → MjData J
  /-- `mujoco.mj_forward(model, data)`: recompute derived quantities,
  no time advance. -/
  mjForward : MjModel → MjData J → MjData J
  /-- `mujoco.mj_resetData(model, data)`: overwrite `data` with the model's
  default values; the result does not depend on the previous data. -/
  defaultData : MjModel → MjData J
  /-- The subclass `inner_step(action)` body, as its effect on the data. -/
  innerStep : A → MjData J → MjData J

/-- One arm of the robot assembly: `joint_index` and `init_pose`, as in
`self.robot.arm[i]`. -/
structure Arm (J : Type) where
  joint_index : List J
  init_pose : List ℚ

/-- The robot handed to `MujocoEnv.__init__`. -/
structure Robot (J : Type) where
  arm : List (Arm J)
  robot_model : MjModel
  robot_data : MjData J
  jnt_num : ℕ

/-- The attribute state of a `MujocoEnv` instance, plus two ghost fields:
`physicsSteps` counts the `mujoco.mj_step` calls made so far, and `wasReset`
records whether `reset()` has ever been called.  No source code reads either
ghost field. -/
structure MujocoEnv (J : Type) where
  robot : Robot J
  control_freq : ℚ
  mj_model : MjModel
  mj_data : MjData J
  cur_time : ℕ
  timestep : ℕ
  model_timestep : ℚ
  control_timestep : ℚ
  robot_dof : ℕ
  /-- `self.renderer.render_paused` (the renderer itself, built in
  `__init__`, is excluded rendering code; `self.renderer` is never `None`). -/
  render_paused : Bool
  physicsSteps : ℕ
  wasReset : Bool

/-- The joint-assignment loops of `_set_init_pose`:
`self.mj_data.joint(arm[i].joint_index[j]).qpos = arm[i].init_pose[j]` for all
`i`, `j` (the two lists of an arm have equal length in every robot, so the
paired traversal is written as a fold over their zip). -/
def applyInitArms [DecidableEq J] (arms : List (Arm J)) (d : MjData J) : MjData J :=
  arms.foldl
    (fun d a =>
      (a.joint_index.zip a.init_pose).foldl
        (fun d p => { d with qpos := Function.update d.qpos p.1 p.2 }) d)
    d

/-- `MujocoEnv._set_init_pose`: write every arm's initial pose, then
`mujoco.mj_forward`. -/
def set_init_pose [DecidableEq J] (sim : MjSim J A) (e : MujocoEnv J) :
    MujocoEnv J :=
  { e with mj_data := sim.mjForward e.mj_model (applyInitArms e.robot.arm e.mj_data) }

/-- `MujocoEnv._initialize_time`: zero the clock, read `opt.timestep`, raise
`ValueError` on a non-positive timestep or control frequency, and set
`control_timestep = 1.0 / control_freq`.  No ratio check is performed. -/
def initTime (e : MujocoEnv J) : Except String (MujocoEnv J) :=
  let e := { e with cur_time := 0, timestep := 0,
                    model_timestep := e.mj_model.timestep }
  if e.model_timestep ≤ 0 then
    Except.error "Invalid simulation timestep defined!"
  else if e.control_freq ≤ 0 then
    Except.error ("Control frequency " ++ toString e.control_freq ++ " is invalid")
  else
    Except.ok { e with control_timestep := 1 / e.control_freq }

/-- `MujocoEnv.__init__`: store the constructor arguments and the robot's
model/data, zero the time attributes, build the renderer (excluded; only its
`render_paused` flag is kept), then run `_initialize_time` and
`_set_init_pose`. -/
def mkEnv [DecidableEq J] (sim : MjSim J A) (robot : Robot J)
    (control_freq : ℚ) (render_paused : Bool) : Except String (MujocoEnv J) :=
  let e0 : MujocoEnv J :=
    { robot := robot, control_freq := control_freq,
      mj_model := robot.robot_model, mj_data := robot.robot_data,
      cur_time := 0, timestep := 0, model_timestep := 0, control_timestep := 0,
      robot_dof := robot.jnt_num, render_paused := render_paused,
      physicsSteps := 0, wasReset := false }
  match initTime e0 with
  | Except.error msg => Except.error msg
  | Except.ok e => Except.ok (set_init_pose sim e)

/-- `MujocoEnv.step(action)`: the whole body is guarded by
`if self.renderer is not None and self.renderer.render_paused:` (the renderer
is never `None`); inside the guard it increments `cur_time` by one, runs
`inner_step(action)`, then calls `mj_forward` and a single `mj_step`. -/
def step (sim : MjSim J A) (action : A) (e : MujocoEnv J) : MujocoEnv J :=
  if e.render_paused then
    let e1 := { e with cur_time := e.cur_time + 1 }
    let e2 := { e1 with mj_data := sim.innerStep action e1.mj_data }
    let e3 := { e2 with mj_data := sim.mjForward e2.mj_model e2.mj_data }
    { e3 with mj_data := sim.mjStep e3.mj_model e3.mj_data,
              physicsSteps := e3.physicsSteps + 1 }
  else e

/-- `MujocoEnv.reset()`: `construct_mjcf_data()` regenerates the MJCF model
deterministically from the unchanged robot description, so
`self.mj_model = self.robot.robot_model` reassigns the same model; then
`mujoco.mj_resetData`, `_set_init_pose`, and one settling `mujoco.mj_step`.
The time attributes are not touched. -/
def reset [DecidableEq J] (sim : MjSim J A) (e : MujocoEnv J) : MujocoEnv J :=
  let e1 := { e with mj_model := e.robot.robot_model }
  let e2 := { e1 with mj_data := sim.defaultData e1.mj_model }
  let e3 := set_init_pose sim e2
  { e3 with mj_data := sim.mjStep e3.mj_model e3.mj_data,
            physicsSteps := e3.physicsSteps + 1, wasReset := true }

/-- Possible `StateError` of the spec (§7): `step` invoked before `reset`. -/
inductive StateError where
  | stepBeforeReset

/-- Refinement-claim counterpart of `step`, following the spec's words (§4.4,
§7): calling `step` while Idle (before any `reset`) must surface a
`StateError`; defined only to be compared with the source-derived `step`. -/
def stepSpec (sim : MjSim J A) (action : A) (e : MujocoEnv J) :
    Except StateError (MujocoEnv J) :=
  if e.wasReset then Except.ok (step sim action e) else Except.error .stepBeforeReset

/-! ## Concrete instances used for witnesses and counterexamples -/

/-- A concrete 6-coordinate pinocchio model: the end effector sits at a locked
placement, so the Jacobian is the zero matrix and the logarithm of every
relative transform is the constant 6-vector of ones (a pose error of norm √6,
far above tolerance — an unreachable target). -/
def Mz : PinModel 6 where
  Pose := Unit
  fkPose := fun _ => ()
  toTrans := fun _ _ => 0
  toRot := fun _ => 1
  se3 := fun _ _ => ()
  actInv := fun _ _ => ()
  seInv := fun _ => ()
  log6 := fun _ _ => 1
  jlog6 := fun _ => 1
  jac := fun _ => 0
  integrate := fun q v j => q j + v j
  mat2quat := fun _ _ => 0

/-- Concrete target position for `Mz`. -/
def pos0 : Fin 3 → ℚ := fun _ => 0

/-- Concrete target rotation for `Mz`. -/
def rot0 : Matrix (Fin 3) (Fin 3) ℚ := 1

/-- Concrete initial joint configuration for `Mz`. -/
def qz : Fin 6 → ℚ := fun _ => 0

/-- A concrete mujoco engine instance over one joint: every external call is
the identity on the data (any deterministic choice works for the claims at
hand, which only count calls and read the clock). -/
def sim0 : MjSim Unit Unit where
  mjStep := fun _ d => d
  mjForward := fun _ d => d
  defaultData := fun _ => { qpos := fun _ => 0, qvel := fun _ => 0 }
  innerStep := fun _ d => d

/-- A concrete one-joint robot whose model has `opt.timestep = 0.0005 s`
(the value named by the spec's control-loop scenario). -/
def robot0 : Robot Unit where
  arm := [{ joint_index := [()], init_pose := [1/2] }]
  robot_model := { timestep := 1/2000 }
  robot_data := { qpos := fun _ => 0, qvel := fun _ => 0 }
  jnt_num := 1

/-- The environment `mkEnv sim0 robot0 200 true` constructs: `control_freq =
200 Hz` gives `control_timestep = 0.005 s`, i.e. a timestep ratio of 10. -/
def env0 : MujocoEnv Unit :=
  set_init_pose sim0
    { robot := robot0, control_freq := 200,
      mj_model := robot0.robot_model, mj_data := robot0.robot_data,
      cur_time := 0, timestep := 0,
      model_timestep := robot0.robot_model.timestep, control_timestep := 1 / 200,
      robot_dof := robot0.jnt_num, render_paused := true,
      physicsSteps := 0, wasReset := false }

/-- The environment `mkEnv sim0 robot0 4000 true` constructs: `control_freq =
4000 Hz` gives `control_timestep = 0.00025 s`, a timestep ratio of 1/2 < 1. -/
def env4k : MujocoEnv Unit :=
  set_init_pose sim0
    { robot := robot0, control_freq := 4000,
      mj_model := robot0.robot_model, mj_data := robot0.robot_data,
      cur_time := 0, timestep := 0,
      model_timestep := robot0.robot_model.timestep, control_timestep := 1 / 4000,
      robot_dof := robot0.jnt_num, render_paused := true,
      physicsSteps := 0, wasReset := false }

/-! ## Helper lemmas -/

/-- `np.linalg.solve` really solves the system: for a nonsingular matrix the
returned vector satisfies `A x = b`. -/
theorem npSolve_spec (A : Matrix (Fin 6) (Fin 6) ℚ) (b : Fin 6 → ℚ)
    (h : A.det ≠ 0) : A.mulVec (npSolve A b) = b := by
  rw [npSolve, Matrix.mulVec_mulVec, Matrix.mul_smul, Matrix.mul_adjugate,
      smul_smul, inv_mul_cancel₀ h, one_smul, Matrix.one_mulVec]

/-- Definitional unfolding of `ik`, proved once at abstract arguments so that
concrete instances never force kernel evaluation of the loop. -/
theorem ik_def (m : PinModel n) (pos : Fin 3 → ℚ) (rot : Matrix (Fin 3) (Fin 3) ℚ)
    (q0 : Fin n → ℚ) : ik m pos rot q0 = (ikLoop m pos rot q0 0).1 := rfl

theorem ikLoop_stop (m : PinModel n) (pos : Fin 3 → ℚ) (rot : Matrix (Fin 3) (Fin 3) ℚ)
    (q : Fin n → ℚ) (i : ℕ) (h : errNorm2 (ikErr m pos rot q) < eps * eps) :
    ikLoop m pos rot q i = (q, true) := by
  rw [ikLoop]; simp [h]

theorem ikLoop_cap (m : PinModel n) (pos : Fin 3 → ℚ) (rot : Matrix (Fin 3) (Fin 3) ℚ)
    (q : Fin n → ℚ) (i : ℕ) (h1 : ¬ errNorm2 (ikErr m pos rot q) < eps * eps)
    (h2 : IT_MAX ≤ i) : ikLoop m pos rot q i = (q, false) := by
  rw [ikLoop]; simp [h1, h2]

theorem ikLoop_go (m : PinModel n) (pos : Fin 3 → ℚ) (rot : Matrix (Fin 3) (Fin 3) ℚ)
    (q : Fin n → ℚ) (i : ℕ) (h1 : ¬ errNorm2 (ikErr m pos rot q) < eps * eps)
    (h2 : ¬ IT_MAX ≤ i) :
    ikLoop m pos rot q i = ikLoop m pos rot (ikUpdate m pos rot q) (i + 1) := by
  rw [ikLoop]; simp [h1, h2]

/-- From any counter value `i`, the loop result is some iterate of the update
map, with at most `IT_MAX - i` update steps. -/
theorem ikLoop_bound (m : PinModel n) (pos : Fin 3 → ℚ) (rot : Matrix (Fin 3) (Fin 3) ℚ) :
    ∀ d i (q : Fin n → ℚ), IT_MAX + 1 - i ≤ d →
      ∃ j, j ≤ IT_MAX - i ∧ (ikLoop m pos rot q i).1 = (fun s => ikUpdate m pos rot s)^[j] q := by
  intro d
  induction d with
  | zero =>
    intro i q hd
    refine ⟨0, Nat.zero_le _, ?_⟩
    have hi : IT_MAX ≤ i := by omega
    by_cases hc : errNorm2 (ikErr m pos rot q) < eps * eps
    · rw [ikLoop_stop m pos rot q i hc]; simp
    · rw [ikLoop_cap m pos rot q i hc hi]; simp
  | succ d ih =>
    intro i q hd
    by_cases hc : errNorm2 (ikErr m pos rot q) < eps * eps
    · exact ⟨0, Nat.zero_le _, by rw [ikLoop_stop m pos rot q i hc]; simp⟩
    · by_cases hi : IT_MAX ≤ i
      · exact ⟨0, Nat.zero_le _, by rw [ikLoop_cap m pos rot q i hc hi]; simp⟩
      · obtain ⟨j, hj, hr⟩ := ih (i + 1) (ikUpdate m pos rot q) (by omega)
        refine ⟨j + 1, by omega, ?_⟩
        rw [ikLoop_go m pos rot q i hc hi, hr, Function.iterate_succ_apply]

/-- If the loop ends with the cap break (second component `false`), it ran the
full `IT_MAX - i` remaining updates. -/
theorem ikLoop_capRun (m : PinModel n) (pos : Fin 3 → ℚ) (rot : Matrix (Fin 3) (Fin 3) ℚ) :
    ∀ d i (q : Fin n → ℚ), IT_MAX - i ≤ d → i ≤ IT_MAX →
      (ikLoop m pos rot q i).2 = false →
      (ikLoop m pos rot q i).1 = (fun s => ikUpdate m pos rot s)^[IT_MAX - i] q := by
  intro d
  induction d with
  | zero =>
    intro i q hd hi hf
    have hIT : IT_MAX ≤ i := by omega
    by_cases hc : errNorm2 (ikErr m pos rot q) < eps * eps
    · rw [ikLoop_stop m pos rot q i hc] at hf; simp at hf
    · rw [ikLoop_cap m pos rot q i hc hIT]
      have h0 : IT_MAX - i = 0 := by omega
      rw [h0]; simp
  | succ d ih =>
    intro i q hd hi hf
    by_cases hc : errNorm2 (ikErr m pos rot q) < eps * eps
    · rw [ikLoop_stop m pos rot q i hc] at hf; simp at hf
    · by_cases hIT : IT_MAX ≤ i
      · rw [ikLoop_cap m pos rot q i hc hIT]
        have h0 : IT_MAX - i = 0 := by omega
        rw [h0]; simp
      · have hrec := ikLoop_go m pos rot q i hc hIT
        rw [hrec] at hf ⊢
        rw [ih (i + 1) (ikUpdate m pos rot q) (by omega) (by omega) hf]
        have hsub : IT_MAX - i = (IT_MAX - (i + 1)) + 1 := by omega
        rw [hsub, Function.iterate_succ_apply]

theorem ikSpecLoop_cap (m : PinModel n) (pos : Fin 3 → ℚ) (rot : Matrix (Fin 3) (Fin 3) ℚ)
    (q : Fin n → ℚ) (i : ℕ) (h1 : ¬ errNorm2 (ikErr m pos rot q) < eps * eps)
    (h2 : IT_MAX ≤ i) : ikSpecLoop m pos rot q i = .convergenceError q := by
  rw [ikSpecLoop]; simp [h1, h2]

theorem ikSpecLoop_go (m : PinModel n) (pos : Fin 3 → ℚ) (rot : Matrix (Fin 3) (Fin 3) ℚ)
    (q : Fin n → ℚ) (i : ℕ) (h1 : ¬ errNorm2 (ikErr m pos rot q) < eps * eps)
    (h2 : ¬ IT_MAX ≤ i) :
    ikSpecLoop m pos rot q i = ikSpecLoop m pos rot (ikUpdate m pos rot q) (i + 1) := by
  rw [ikSpecLoop]; simp [h1, h2]

/-! Facts about the concrete model `Mz`. -/

theorem ikErr_Mz (pos : Fin 3 → ℚ) (rot : Matrix (Fin 3) (Fin 3) ℚ) (q : Fin 6 → ℚ) :
    ikErr Mz pos rot q = fun _ => 1 := rfl

theorem Mz_notConv (pos : Fin 3 → ℚ) (rot : Matrix (Fin 3) (Fin 3) ℚ) (q : Fin 6 → ℚ) :
    ¬ errNorm2 (ikErr Mz pos rot q) < eps * eps := by
  have h6 : errNorm2 (fun _ => (1 : ℚ)) = 6 := by
    simp [errNorm2]
  rw [ikErr_Mz, h6]
  norm_num [eps]

theorem ikJ_Mz (pos : Fin 3 → ℚ) (rot : Matrix (Fin 3) (Fin 3) ℚ) (q : Fin 6 → ℚ) :
    ikJ Mz pos rot q = 0 := by
  simp [ikJ, Mz]

theorem ikV_Mz (pos : Fin 3 → ℚ) (rot : Matrix (Fin 3) (Fin 3) ℚ) (q : Fin 6 → ℚ) :
    ikV Mz pos rot q = 0 := by
  rw [ikV, ikJ_Mz]; simp

theorem ikA_Mz (pos : Fin 3 → ℚ) (rot : Matrix (Fin 3) (Fin 3) ℚ) (q : Fin 6 → ℚ) :
    ikA Mz pos rot q = damp • (1 : Matrix (Fin 6) (Fin 6) ℚ) := by
  rw [ikA, ikJ_Mz]; simp

theorem ikA_Mz_det (pos : Fin 3 → ℚ) (rot : Matrix (Fin 3) (Fin 3) ℚ) (q : Fin 6 → ℚ) :
    (ikA Mz pos rot q).det ≠ 0 := by
  rw [ikA_Mz, Matrix.det_smul, Matrix.det_one]
  norm_num [damp]

theorem ikUpdate_Mz (pos : Fin 3 → ℚ) (rot : Matrix (Fin 3) (Fin 3) ℚ) (q : Fin 6 → ℚ) :
    ikUpdate Mz pos rot q = q := by
  funext j
  rw [ikUpdate, ikV_Mz]
  simp [Mz]

theorem Mz_loop (pos : Fin 3 → ℚ) (rot : Matrix (Fin 3) (Fin 3) ℚ) :
    ∀ d i (q : Fin 6 → ℚ), IT_MAX + 1 - i ≤ d → ikLoop Mz pos rot q i = (q, false) := by
  intro d
  induction d with
  | zero =>
    intro i q hd
    exact ikLoop_cap Mz pos rot q i (Mz_notConv pos rot q) (by omega)
  | succ d ih =>
    intro i q hd
    by_cases hIT : IT_MAX ≤ i
    · exact ikLoop_cap Mz pos rot q i (Mz_notConv pos rot q) hIT
    · rw [ikLoop_go Mz pos rot q i (Mz_notConv pos rot q) hIT, ikUpdate_Mz]
      exact ih (i + 1) q (by omega)

theorem Mz_specLoop (pos : Fin 3 → ℚ) (rot : Matrix (Fin 3) (Fin 3) ℚ) :
    ∀ d i (q : Fin 6 → ℚ), IT_MAX + 1 - i ≤ d →
      ikSpecLoop Mz pos rot q i = .convergenceError q := by
  intro d
  induction d with
  | zero =>
    intro i q hd
    exact ikSpecLoop_cap Mz pos rot q i (Mz_notConv pos rot q) (by omega)
  | succ d ih =>
    intro i q hd
    by_cases hIT : IT_MAX ≤ i
    · exact ikSpecLoop_cap Mz pos rot q i (Mz_notConv pos rot q) hIT
    · rw [ikSpecLoop_go Mz pos rot q i (Mz_notConv pos rot q) hIT, ikUpdate_Mz]
      exact ih (i + 1) q (by omega)

/-! Facts about `step`, `reset` and the concrete environments. -/

theorem step_run (sim : MjSim J A) (a : A) (e : MujocoEnv J)
    (h : e.render_paused = true) :
    step sim a e =
      { e with cur_time := e.cur_time + 1,
               mj_data := sim.mjStep e.mj_model
                 (sim.mjForward e.mj_model (sim.innerStep a e.mj_data)),
               physicsSteps := e.physicsSteps + 1 } := by
  simp [step, h]

theorem step_skip (sim : MjSim J A) (a : A) (e : MujocoEnv J)
    (h : e.render_paused = false) : step sim a e = e := by
  simp [step, h]

theorem initTime_pos (e : MujocoEnv J) (h1 : ¬ e.mj_model.timestep ≤ 0)
    (h2 : ¬ e.control_freq ≤ 0) :
    initTime e = Except.ok
      { e with cur_time := 0, timestep := 0,
               model_timestep := e.mj_model.timestep,
               control_timestep := 1 / e.control_freq } := by
  simp [initTime, h1, h2]

theorem mkEnv_env0 : mkEnv sim0 robot0 200 true = Except.ok env0 := by
  simp only [mkEnv]
  rw [initTime_pos _ (by norm_num [robot0]) (by norm_num)]
  rfl

theorem mkEnv_env4k : mkEnv sim0 robot0 4000 true = Except.ok env4k := by
  simp only [mkEnv]
  rw [initTime_pos _ (by norm_num [robot0]) (by norm_num)]
  rfl

/-! ## Claim theorems -/

/-- **C1, counterexample.** In the environment built with
`model_timestep = 0.0005 s` and `control_freq = 200` (so
`control_timestep / model_timestep = 10`), one `step` call performs exactly
one physics engine step — not 10 micro-steps — increments `cur_time` by 1,
and leaves the (never-incremented) `timestep` counter at 0.  This refutes the
claim that each `step` advances physics by 10 micro-steps and that a
step count reaches `10·N` after `N` steps. -/
theorem step_micro_cex :
    mkEnv sim0 robot0 200 true = Except.ok env0 ∧
    env0.control_timestep / env0.model_timestep = 10 ∧
    (step sim0 () env0).physicsSteps = 1 ∧
    (step sim0 () env0).physicsSteps ≠ 10 ∧
    (step sim0 () env0).cur_time = 1 ∧
    (step sim0 () env0).timestep = 0 := by
  refine ⟨mkEnv_env0, ?_, ?_, ?_, ?_, ?_⟩
  · show (1 / 200 : ℚ) / robot0.robot_model.timestep = 10
    norm_num [robot0]
  · rw [step_run sim0 () env0 rfl]; rfl
  · rw [step_run sim0 () env0 rfl]; decide
  · rw [step_run sim0 () env0 rfl]; rfl
  · rw [step_run sim0 () env0 rfl]; rfl

/-- **C1 (amended).** Each `step(action)` call whose renderer guard is open
(`render_paused = true`) advances the physics engine by exactly one engine
step and increments `cur_time` by 1, independent of the
`control_timestep / model_timestep` ratio; no micro-step count is kept
(`timestep` never changes), so after `N` step calls physics has advanced `N`
steps and `cur_time = N`, not `10·N`. -/
theorem step_advances_one (sim : MjSim J A) (a : A) (nSteps : ℕ) (e : MujocoEnv J)
    (h : e.render_paused = true) :
    ((fun s => step sim a s)^[nSteps] e).physicsSteps = e.physicsSteps + nSteps ∧
    ((fun s => step sim a s)^[nSteps] e).cur_time = e.cur_time + nSteps ∧
    ((fun s => step sim a s)^[nSteps] e).timestep = e.timestep := by
  induction nSteps generalizing e with
  | zero => simp
  | succ k ih =>
    have hstep := step_run sim a e h
    have hr : (step sim a e).render_paused = true := by rw [hstep]; exact h
    have hp : (step sim a e).physicsSteps = e.physicsSteps + 1 := by rw [hstep]
    have hc : (step sim a e).cur_time = e.cur_time + 1 := by rw [hstep]
    have ht : (step sim a e).timestep = e.timestep := by rw [hstep]
    obtain ⟨h1, h2, h3⟩ := ih (step sim a e) hr
    refine ⟨?_, ?_, ?_⟩
    · rw [Function.iterate_succ_apply, h1, hp]; omega
    · rw [Function.iterate_succ_apply, h2, hc]; omega
    · rw [Function.iterate_succ_apply, h3, ht]

/-- **C1, witness** for `step_advances_one` at the concrete environment
`env0` (ratio 10) and `nSteps = 3`. -/
theorem step_advances_one_witness :
    env0.render_paused = true ∧
    ((fun s => step sim0 () s)^[3] env0).physicsSteps = env0.physicsSteps + 3 ∧
    ((fun s => step sim0 () s)^[3] env0).cur_time = env0.cur_time + 3 ∧
    ((fun s => step sim0 () s)^[3] env0).timestep = env0.timestep :=
  ⟨rfl, (step_advances_one sim0 () 3 env0 rfl).1,
    (step_advances_one sim0 () 3 env0 rfl).2.1,
    (step_advances_one sim0 () 3 env0 rfl).2.2⟩

/-- **C2, counterexample.** In `ik`'s loop body the joint-velocity step `v`
does not satisfy the damped normal equations `(J Jᵗ + λI) v = error`: at the
concrete 6-coordinate model `Mz` (6 joint coordinates, so the equation is
even well-typed) the step `v` computed by the code is `-Jᵗ·u` for the
solution `u` of that system — here the zero vector — while the error is the
all-ones vector, so `(J Jᵗ + λI) v ≠ error`. -/
theorem ik_normal_equations_cex :
    ¬ ((ikA Mz pos0 rot0 qz).mulVec (ikV Mz pos0 rot0 qz) = ikErr Mz pos0 rot0 qz) := by
  intro hEq
  have h0 := congrFun hEq 0
  rw [ikV_Mz, Matrix.mulVec_zero, ikErr_Mz] at h0
  simp at h0

/-- **C2 (amended).** Every non-terminal iteration of `ik` computes the pose
error as the logarithm of the relative transform between the current and
target pose; forms the Jacobian `J` by transforming the local Jacobian with
the logarithm-map Jacobian of the relative pose (negated); solves the damped
normal equations `(J Jᵗ + λI) u = error` exactly, with `λ = damp = 1e-12`;
takes the joint-velocity step `v = -Jᵗ u` (not `v = u` as the claim's
equation reads); and updates `q ← integrate(model, q, v·Δ)` with
`Δ = DT = 0.1`. -/
theorem ik_iteration_structure (m : PinModel n) (pos : Fin 3 → ℚ)
    (rot : Matrix (Fin 3) (Fin 3) ℚ) (q : Fin n → ℚ) (i : ℕ)
    (hconv : ¬ errNorm2 (ikErr m pos rot q) < eps * eps)
    (hcap : i < IT_MAX)
    (hdet : (ikA m pos rot q).det ≠ 0) :
    ikLoop m pos rot q i = ikLoop m pos rot (ikUpdate m pos rot q) (i + 1) ∧
    ikErr m pos rot q = m.log6 (m.actInv (m.fkPose q) (m.se3 rot pos)) ∧
    ikA m pos rot q
      = ikJ m pos rot q * (ikJ m pos rot q).transpose + damp • 1 ∧
    (ikA m pos rot q).mulVec (npSolve (ikA m pos rot q) (ikErr m pos rot q))
      = ikErr m pos rot q ∧
    ikV m pos rot q
      = -((ikJ m pos rot q).transpose.mulVec
            (npSolve (ikA m pos rot q) (ikErr m pos rot q))) ∧
    ikUpdate m pos rot q = m.integrate q (fun j => ikV m pos rot q j * DT) ∧
    damp = 1 / 1000000000000 ∧ DT = 1 / 10 :=
  ⟨ikLoop_go m pos rot q i hconv (by omega), rfl, rfl,
    npSolve_spec _ _ hdet, rfl, rfl, rfl, rfl⟩

/-- **C2, witness** for `ik_iteration_structure` at the concrete model `Mz`,
iteration `i = 0`. -/
theorem ik_iteration_structure_witness :
    (¬ errNorm2 (ikErr Mz pos0 rot0 qz) < eps * eps) ∧ 0 < IT_MAX ∧
    (ikA Mz pos0 rot0 qz).det ≠ 0 ∧
    (ikLoop Mz pos0 rot0 qz 0 = ikLoop Mz pos0 rot0 (ikUpdate Mz pos0 rot0 qz) 1 ∧
      (ikA Mz pos0 rot0 qz).mulVec (npSolve (ikA Mz pos0 rot0 qz) (ikErr Mz pos0 rot0 qz))
        = ikErr Mz pos0 rot0 qz) :=
  ⟨Mz_notConv pos0 rot0 qz, by norm_num [IT_MAX], ikA_Mz_det pos0 rot0 qz,
    (ik_iteration_structure Mz pos0 rot0 qz 0 (Mz_notConv pos0 rot0 qz)
        (by norm_num [IT_MAX]) (ikA_Mz_det pos0 rot0 qz)).1,
    (ik_iteration_structure Mz pos0 rot0 qz 0 (Mz_notConv pos0 rot0 qz)
        (by norm_num [IT_MAX]) (ikA_Mz_det pos0 rot0 qz)).2.2.2.1⟩

/-- **C3, counterexample.** At the concrete model `Mz` with its unreachable
target, the loop exhausts the 1000-iteration cap without reaching tolerance
(the exit flag is `false`), yet `ik` returns the bare configuration `qz` —
indistinguishable from a converged answer.  `ikSpec`, the claim's reading of
the function (same iteration, but surfacing a `ConvergenceError` at the cap),
returns `convergenceError qz` on the same input: the code surfaces no error,
refuting "terminates with a ConvergenceError surfaced to the caller". -/
theorem ik_cap_silent_cex :
    (ikLoop Mz pos0 rot0 qz 0).2 = false ∧
    ik Mz pos0 rot0 qz = qz ∧
    ikSpec Mz pos0 rot0 qz = IkOutcome.convergenceError qz := by
  have hl := Mz_loop pos0 rot0 (IT_MAX + 1) 0 qz (by omega)
  refine ⟨by rw [hl], ?_, ?_⟩
  · rw [ik_def, hl]
  · exact Mz_specLoop pos0 rot0 (IT_MAX + 1) 0 qz (by omega)

/-- **C3 (amended).** If `ik` reaches the iteration cap (1000) without the
error norm falling below tolerance, it still returns the best-effort final
joint configuration — the 1000-fold update of the initial guess — but no
`ConvergenceError` (nor any other error) is surfaced: the bare configuration
is the caller's only output. -/
theorem ik_cap_best_effort (m : PinModel n) (pos : Fin 3 → ℚ)
    (rot : Matrix (Fin 3) (Fin 3) ℚ) (q0 : Fin n → ℚ)
    (hf : (ikLoop m pos rot q0 0).2 = false) :
    ik m pos rot q0 = (fun s => ikUpdate m pos rot s)^[IT_MAX] q0 := by
  have h := ikLoop_capRun m pos rot IT_MAX 0 q0 (by omega) (by omega) hf
  rw [ik_def]
  simpa using h

/-- **C3, witness** for `ik_cap_best_effort` at the concrete model `Mz`. -/
theorem ik_cap_best_effort_witness :
    (ikLoop Mz pos0 rot0 qz 0).2 = false ∧
    ik Mz pos0 rot0 qz = (fun s => ikUpdate Mz pos0 rot0 s)^[IT_MAX] qz := by
  have hf : (ikLoop Mz pos0 rot0 qz 0).2 = false := by
    rw [Mz_loop pos0 rot0 (IT_MAX + 1) 0 qz (by omega)]
  exact ⟨hf, ik_cap_best_effort Mz pos0 rot0 qz hf⟩

/-- **C4, counterexample.** `reset()` does not zero the simulation clock:
starting from the freshly constructed `env0` and taking one `step`
(`cur_time = 1`), a `reset` leaves `cur_time` at 1, not 0. -/
theorem reset_clock_cex :
    mkEnv sim0 robot0 200 true = Except.ok env0 ∧
    (step sim0 () env0).cur_time = 1 ∧
    (reset sim0 (step sim0 () env0)).cur_time = 1 ∧
    (reset sim0 (step sim0 () env0)).cur_time ≠ 0 := by
  have hs : (step sim0 () env0).cur_time = 1 := by
    rw [step_run sim0 () env0 rfl]; rfl
  exact ⟨mkEnv_env0, hs, hs, by rw [show (reset sim0 (step sim0 () env0)).cur_time
    = (step sim0 () env0).cur_time from rfl, hs]; norm_num⟩

/-- **C4 (amended).** Every `reset()` re-applies the robot's full initial
pose on top of freshly reset (model-default) data, runs one kinematic
consistency pass and one settling physics step, and marks the environment as
reset — but it does not zero the simulation clock: `cur_time` and `timestep`
keep their prior values. -/
theorem reset_reapplies_pose_keeps_clock [DecidableEq J] (sim : MjSim J A) (e : MujocoEnv J) :
    (reset sim e).mj_data =
      sim.mjStep e.robot.robot_model
        (sim.mjForward e.robot.robot_model
          (applyInitArms e.robot.arm (sim.defaultData e.robot.robot_model))) ∧
    (reset sim e).cur_time = e.cur_time ∧
    (reset sim e).timestep = e.timestep ∧
    (reset sim e).wasReset = true :=
  ⟨rfl, rfl, rfl, rfl⟩

/-- **C5, counterexample.** Construction does not fail when the
`control_timestep / model_timestep` ratio is below 1: with
`model_timestep = 0.0005 s` and `control_freq = 4000` the ratio is 1/2 < 1,
yet `mkEnv` succeeds. -/
theorem ratio_unchecked_cex :
    mkEnv sim0 robot0 4000 true = Except.ok env4k ∧
    env4k.control_timestep / env4k.model_timestep < 1 := by
  refine ⟨mkEnv_env4k, ?_⟩
  show (1 / 4000 : ℚ) / robot0.robot_model.timestep < 1
  norm_num [robot0]

/-- **C5 (amended).** Construction of the control loop succeeds exactly when
the physics model timestep and the control frequency are both strictly
positive; the `control_timestep / model_timestep` ratio is never checked, so
a ratio below 1 does not cause a failure. -/
theorem mkEnv_ok_iff [DecidableEq J] (sim : MjSim J A) (robot : Robot J)
    (cf : ℚ) (rp : Bool) :
    (∃ e, mkEnv sim robot cf rp = Except.ok e) ↔
      (0 < robot.robot_model.timestep ∧ 0 < cf) := by
  constructor
  · rintro ⟨e, he⟩
    by_cases h1 : robot.robot_model.timestep ≤ 0
    · simp [mkEnv, initTime, h1] at he
    · by_cases h2 : cf ≤ 0
      · simp [mkEnv, initTime, h1, h2] at he
      · exact ⟨lt_of_not_le h1, lt_of_not_le h2⟩
  · rintro ⟨h1, h2⟩
    refine ⟨set_init_pose sim
      { robot := robot, control_freq := cf, mj_model := robot.robot_model,
        mj_data := robot.robot_data, cur_time := 0, timestep := 0,
        model_timestep := robot.robot_model.timestep, control_timestep := 1 / cf,
        robot_dof := robot.jnt_num, render_paused := rp,
        physicsSteps := 0, wasReset := false }, ?_⟩
    simp only [mkEnv]
    rw [initTime_pos _ (not_le.mpr h1) (not_le.mpr h2)]

/-- **C6, counterexample.** `step` called on the freshly constructed,
never-reset `env0` raises nothing and executes its full body (clock bump and
physics advance) — whereas `stepSpec`, the claim's reading per the spec,
surfaces `StateError.stepBeforeReset` on the same input.  The code has no
Idle state and no `StateError`. -/
theorem step_idle_cex :
    mkEnv sim0 robot0 200 true = Except.ok env0 ∧
    env0.wasReset = false ∧
    stepSpec sim0 () env0 = Except.error StateError.stepBeforeReset ∧
    (step sim0 () env0).cur_time = env0.cur_time + 1 ∧
    (step sim0 () env0).physicsSteps = env0.physicsSteps + 1 := by
  refine ⟨mkEnv_env0, rfl, rfl, ?_, ?_⟩
  · rw [step_run sim0 () env0 rfl]
  · rw [step_run sim0 () env0 rfl]

/-- **C6 (amended).** `step` performs no Idle/Running check: its behaviour is
entirely independent of whether `reset` has ever been called (it neither
reads nor changes the reset state), and it never raises — before the first
reset it runs exactly as after it, gated only by `render_paused`. -/
theorem step_ignores_reset_state (sim : MjSim J A) (a : A) (e : MujocoEnv J)
    (b : Bool) :
    step sim a { e with wasReset := b } = { step sim a e with wasReset := b } := by
  cases hr : e.render_paused <;> simp [step, hr]

/-- **C7 (confirmed).** `ik` terminates after at most `IT_MAX = 1000` update
steps for every model, target pose and initial configuration: its result is
always a `j`-fold update of the initial guess with `j ≤ 1000`.  (In
particular, for the unreachable target of `Mz` it stops after exactly 1000
updates instead of looping forever — see `ik_cap_best_effort_witness`.) -/
theorem ik_iteration_bounded (m : PinModel n) (pos : Fin 3 → ℚ)
    (rot : Matrix (Fin 3) (Fin 3) ℚ) (q0 : Fin n → ℚ) :
    ∃ j, j ≤ IT_MAX ∧ ik m pos rot q0 = (fun s => ikUpdate m pos rot s)^[j] q0 := by
  obtain ⟨j, hj, hr⟩ := ikLoop_bound m pos rot (IT_MAX + 1) 0 q0 (by omega)
  exact ⟨j, by omega, by rw [ik_def]; exact hr⟩

/-- **C8 (confirmed).** `reset()` is idempotent on the joint state: after a
second consecutive `reset` the joint positions and velocities are exactly
(bit-for-bit) those after the first, because `mj_resetData` discards the
previous data and the same initial pose, consistency pass and settling step
are re-applied to the same model. -/
theorem reset_idempotent [DecidableEq J] (sim : MjSim J A) (e : MujocoEnv J) :
    (reset sim (reset sim e)).mj_data.qpos = (reset sim e).mj_data.qpos ∧
    (reset sim (reset sim e)).mj_data.qvel = (reset sim e).mj_data.qvel :=
  ⟨rfl, rfl⟩

/-- **C9 (confirmed).** When `render_paused` is `false`, `step(action)` is a
complete no-op — the returned state is the input state, so the physics is not
advanced, the action is not applied, and `cur_time`/`timestep` are unchanged;
and when `render_paused` is `true` the full body runs: `cur_time` increments,
one physics step is taken, and the data passes through
`inner_step`/`mj_forward`/`mj_step`. -/
theorem step_render_gate (sim : MjSim J A) (a : A) (e : MujocoEnv J) :
    (e.render_paused = false → step sim a e = e) ∧
    (e.render_paused = true →
      (step sim a e).cur_time = e.cur_time + 1 ∧
      (step sim a e).physicsSteps = e.physicsSteps + 1 ∧
      (step sim a e).mj_data =
        sim.mjStep e.mj_model (sim.mjForward e.mj_model (sim.innerStep a e.mj_data))) := by
  refine ⟨fun h => step_skip sim a e h, fun h => ?_⟩
  rw [step_run sim a e h]
  exact ⟨rfl, rfl, rfl⟩

/-- **C9, witness** for `step_render_gate`: a paused-off copy of `env0` is
left untouched by `step`, while `env0` itself (guard open) gets its clock
bumped. -/
theorem step_render_gate_witness :
    step sim0 () { env0 with render_paused := false } = { env0 with render_paused := false } ∧
    (step sim0 () env0).cur_time = env0.cur_time + 1 :=
  ⟨(step_render_gate sim0 () { env0 with render_paused := false }).1 rfl,
    ((step_render_gate sim0 () env0).2 rfl).1⟩

/-- **C10 (confirmed).** `fk(q, rot_format)` returns a (translation,
rotation) pair exactly when `rot_format` is `"matrix"` or `"quat"` — the
rotation given as a matrix resp. a quaternion — and for any other
`rot_format` value it returns `none` without raising. -/
theorem fk_formats (m : PinModel n) (q : Fin n → ℚ) (s : String) :
    ((fk m q s).isSome ↔ (s = "matrix" ∨ s = "quat")) ∧
    fk m q "matrix"
      = some (m.toTrans (m.fkPose q), Sum.inl (m.toRot (m.fkPose q))) ∧
    fk m q "quat"
      = some (m.toTrans (m.fkPose q), Sum.inr (m.mat2quat (m.toRot (m.fkPose q)))) ∧
    (s ≠ "matrix" → s ≠ "quat" → fk m q s = none) := by
  refine ⟨?_, by simp [fk], by simp [fk], fun h1 h2 => by simp [fk, h1, h2]⟩
  by_cases h1 : s = "matrix" <;> by_cases h2 : s = "quat" <;> simp [fk, h1, h2]

/-- **C10, witness** for `fk_formats` at the concrete model `Mz` and the
unsupported format string "euler". -/
theorem fk_formats_witness :
    ((fk Mz qz "euler").isSome ↔ ("euler" = "matrix" ∨ "euler" = "quat")) ∧
    fk Mz qz "euler" = none :=
  ⟨(fk_formats Mz qz "euler").1,
    (fk_formats Mz qz "euler").2.2.2 (by decide) (by decide)⟩

end Robopal
